import Mathlib

/-!
Verification of the Deadmanswitch cryptography package (native and browser
front-ends) against its specification.

The package orchestrates an external crypto provider: the repository's own
test suite installs Node's `crypto` module as that provider, so the provider
primitives are embedded with Node semantics:

* the AES-256-CBC block permutation itself is kept abstract (a `BlockFun`
  parameter), while CBC chaining, PKCS#7 padding and the stateful
  update/final buffering of Node cipher/decipher contexts are embedded
  concretely;
* PBKDF2-HMAC-SHA256 is kept abstract (a `KdfFun` parameter);
* base64 encoding follows `Buffer.toString('base64')` (padded), and base64
  decoding follows `Buffer.from(str, 'base64')`: characters outside the
  (URL-safe extended) alphabet are skipped and decoding stops at the first
  `'='` padding character;
* JavaScript strings handled by the package are ASCII (base64 text,
  ciphertext-as-base64 text), so strings are identified with their lists of
  UTF-8 code units (`Bytes`).
-/

set_option maxRecDepth 10000

namespace DMSCrypto

/-- A byte sequence; also used for the JavaScript strings handled by the
package, identified with their UTF-8 code units. -/
abbrev Bytes := List Nat

/-! ## Base64 (Node `Buffer` semantics) -/

/-- The base64 alphabet as character codes: `A`-`Z`, `a`-`z`, `0`-`9`, `+`, `/`. -/
def b64Table : Bytes :=
  (List.range 26).map (fun i => 65 + i) ++ (List.range 26).map (fun i => 97 + i) ++
    (List.range 10).map (fun i => 48 + i) ++ [43, 47]

/-- Character code of the base64 digit with sextet value `i`. -/
def b64Char (i : Nat) : Nat := b64Table.getD i 0

/-- Padded base64 encoding of a byte sequence, as `Buffer.toString('base64')`
produces it (`61` is the character code of `'='`). -/
def b64Encode : Bytes → Bytes
  | b1 :: b2 :: b3 :: rest =>
      b64Char (b1 / 4) :: b64Char (b1 % 4 * 16 + b2 / 16) ::
        b64Char (b2 % 16 * 4 + b3 / 64) :: b64Char (b3 % 64) :: b64Encode rest
  | [b1, b2] => [b64Char (b1 / 4), b64Char (b1 % 4 * 16 + b2 / 16), b64Char (b2 % 16 * 4), 61]
  | [b1] => [b64Char (b1 / 4), b64Char (b1 % 4 * 16), 61, 61]
  | [] => []

/-- Sextet value of a base64 character code; Node also accepts the URL-safe
alphabet (`-`, `_`). `none` marks a character Node's decoder skips. -/
def unb64 (c : Nat) : Option Nat :=
  if 65 ≤ c ∧ c ≤ 90 then some (c - 65)
  else if 97 ≤ c ∧ c ≤ 122 then some (c - 97 + 26)
  else if 48 ≤ c ∧ c ≤ 57 then some (c - 48 + 52)
  else if c = 43 ∨ c = 45 then some 62
  else if c = 47 ∨ c = 95 then some 63
  else none

/-- Node's base64 decoder stops at the first `'='` (code 61). -/
def stopAtPad : Bytes → Bytes
  | [] => []
  | c :: l => if c = 61 then [] else c :: stopAtPad l

/-- Regroup a stream of sextets into bytes, emitting bytes incrementally the
way Node's decoder does (2 leftover sextets yield 1 byte, 3 yield 2). -/
def sextetsToBytes : List Nat → Bytes
  | a :: b :: c :: d :: rest =>
      (a * 4 + b / 16) :: (b % 16 * 16 + c / 4) :: (c % 4 * 64 + d) :: sextetsToBytes rest
  | [a, b, c] => [a * 4 + b / 16, b % 16 * 16 + c / 4]
  | [a, b] => [a * 4 + b / 16]
  | _ => []

/-- `Buffer.from(s, 'base64')`: skip invalid characters, stop at the first
`'='`, regroup sextets into bytes. -/
def nodeB64Decode (s : Bytes) : Bytes :=
  sextetsToBytes ((stopAtPad s).filterMap unb64)

/-! ## AES-256-CBC cipher contexts (Node `createCipheriv`/`createDecipheriv`) -/

/-- Abstract 16-byte block permutation (key, block) ↦ block. The AES-256
block cipher itself is supplied by the platform crypto provider and is
external to the repository, so theorems quantify over it. -/
abbrev BlockFun := Bytes → Bytes → Bytes

/-- Bytewise xor of two equal-length blocks. -/
def zipXor (a b : Bytes) : Bytes := List.zipWith (fun x y => x ^^^ y) a b

/-- State of a Node cipher/decipher context: the key, the previous block of
the CBC chain (initially the IV), and the buffered input bytes not yet
processed. -/
structure CipherCtx where
  key : Bytes
  prev : Bytes
  carry : Bytes
deriving DecidableEq

/-- Split into 16-byte blocks (fuel-driven so it reduces in the kernel). -/
def toBlocksAux : Nat → Bytes → List Bytes
  | _, [] => []
  | 0, l => [l]
  | fuel + 1, l => l.take 16 :: toBlocksAux fuel (l.drop 16)

/-- Split a byte sequence into consecutive 16-byte blocks. -/
def toBlocks (l : Bytes) : List Bytes := toBlocksAux l.length l

/-- CBC-encrypt a list of blocks; returns the new chain block and the
ciphertext blocks. -/
def cbcEncBlocks (enc : BlockFun) (key : Bytes) : Bytes → List Bytes → Bytes × List Bytes
  | prev, [] => (prev, [])
  | prev, b :: bs =>
      let c := enc key (zipXor prev b)
      let r := cbcEncBlocks enc key c bs
      (r.1, c :: r.2)

/-- CBC-decrypt a list of blocks; returns the new chain block and the
plaintext blocks. -/
def cbcDecBlocks (dec : BlockFun) (key : Bytes) : Bytes → List Bytes → Bytes × List Bytes
  | prev, [] => (prev, [])
  | prev, c :: cs =>
      let p := zipXor prev (dec key c)
      let r := cbcDecBlocks dec key c cs
      (r.1, p :: r.2)

/-- `cipher.update`: process every complete 16-byte block of carry ++ data,
buffer the remainder. -/
def cipherUpdate (enc : BlockFun) (ctx : CipherCtx) (data : Bytes) : CipherCtx × Bytes :=
  let all := ctx.carry ++ data
  let m := all.length - all.length % 16
  let r := cbcEncBlocks enc ctx.key ctx.prev (toBlocks (all.take m))
  (⟨ctx.key, r.1, all.drop m⟩, r.2.flatten)

/-- PKCS#7 padding to the next 16-byte boundary. -/
def pkcs7pad (l : Bytes) : Bytes :=
  let p := 16 - l.length % 16
  l ++ List.replicate p p

/-- `cipher.final`: pad the buffered remainder and encrypt it. -/
def cipherFinal (enc : BlockFun) (ctx : CipherCtx) : Bytes :=
  ((cbcEncBlocks enc ctx.key ctx.prev (toBlocks (pkcs7pad ctx.carry))).2).flatten

/-- `decipher.update`: process complete blocks but hold the last complete
block back (it may carry the padding), as OpenSSL/Node do. -/
def decipherUpdate (dec : BlockFun) (ctx : CipherCtx) (data : Bytes) : CipherCtx × Bytes :=
  let all := ctx.carry ++ data
  let m := if all.length % 16 = 0 then all.length - 16 else all.length - all.length % 16
  let r := cbcDecBlocks dec ctx.key ctx.prev (toBlocks (all.take m))
  (⟨ctx.key, r.1, all.drop m⟩, r.2.flatten)

/-- Strip PKCS#7 padding, rejecting malformed padding as Node does. -/
def pkcs7unpad (l : Bytes) : Except String Bytes :=
  match l.getLast? with
  | none => Except.error "bad decrypt"
  | some n =>
      if 1 ≤ n ∧ n ≤ 16 ∧ (l.drop (l.length - n)).all (fun x => x = n) then
        Except.ok (l.take (l.length - n))
      else Except.error "bad decrypt"

/-- `decipher.final`: the held-back data must be exactly one block; decrypt
it and strip the padding. -/
def decipherFinal (dec : BlockFun) (ctx : CipherCtx) : Except String Bytes :=
  if ctx.carry.length = 16 then
    pkcs7unpad (zipXor ctx.prev (dec ctx.key ctx.carry))
  else Except.error "wrong final block length"

/-! ## Text-mode cipher functions (`src/native.ts`, `src/browser.ts`) -/

/-- `nativeEncryptText(key, ivv, text)`: decode key and IV from base64
(`createCipheriv` rejects wrong lengths), run one `update` over the whole
text, then `final`, and return the concatenation of the two independently
base64-encoded outputs (`encrypted + final`). -/
def nativeEncryptText (enc : BlockFun) (key ivv text : Bytes) : Except String Bytes :=
  let k := nodeB64Decode key
  let iv := nodeB64Decode ivv
  if k.length = 32 ∧ iv.length = 16 then
    let r := cipherUpdate enc ⟨k, iv, []⟩ text
    Except.ok (b64Encode r.2 ++ b64Encode (cipherFinal enc r.1))
  else Except.error "invalid key or iv length"

/-- `nativeDecryptText(key, ivv, text)`: decode key and IV from base64, run
one `update` with base64 input encoding over the ciphertext text, then
`final`, returning `decrypted + final` (or the underlying error). -/
def nativeDecryptText (dec : BlockFun) (key ivv text : Bytes) : Except String Bytes :=
  let k := nodeB64Decode key
  let iv := nodeB64Decode ivv
  if k.length = 32 ∧ iv.length = 16 then
    let r := decipherUpdate dec ⟨k, iv, []⟩ (nodeB64Decode text)
    match decipherFinal dec r.1 with
    | Except.ok fin => Except.ok (r.2 ++ fin)
    | Except.error e => Except.error e
  else Except.error "invalid key or iv length"

/-- `browserEncryptText(key, ivv, text, event)`: WebCrypto `AES-CBC` encrypt
of the whole UTF-8 text in one shot (always PKCS#7-padded), delivered to the
event handler as base64. -/
def browserEncryptText (enc : BlockFun) (key ivv text : Bytes) : Except String Bytes :=
  let k := nodeB64Decode key
  let iv := nodeB64Decode ivv
  if k.length = 32 ∧ iv.length = 16 then
    Except.ok (b64Encode ((cbcEncBlocks enc k iv (toBlocks (pkcs7pad text))).2.flatten))
  else Except.error "invalid key or iv length"

/-! ## Key derivation (`nativeGenerateKey`/`Hash`, `browserGenerateKey`/`Hash`) -/

/-- Abstract PBKDF2-HMAC-SHA256: (password bytes, salt bytes, iterations,
byte length) ↦ derived bytes. The primitive is supplied by the platform
crypto provider (Node `pbkdf2Sync` / WebCrypto `deriveBits`), so theorems
quantify over it. -/
abbrev KdfFun := Bytes → Bytes → Nat → Nat → Bytes

/-- `const defaultIterations = 100000` in `src/native.ts`. -/
def defaultIterations : Nat := 100000

/-- `const bytesize = 32` in `src/native.ts`. -/
def bytesize : Nat := 32

/-- `nativeGenerateKey(password, ivv)`: PBKDF2 over the UTF-8 password bytes
with the base64-decoded IVV as salt, result base64-encoded. -/
def nativeGenerateKey (kdf : KdfFun) (password ivv : Bytes) : Bytes :=
  b64Encode (kdf password (nodeB64Decode ivv) defaultIterations bytesize)

/-- `nativeGenerateHash(password, ivv)`: derive a key from the password and
derive again with that key as the password. -/
def nativeGenerateHash (kdf : KdfFun) (password ivv : Bytes) : Bytes :=
  nativeGenerateKey kdf (nativeGenerateKey kdf password ivv) ivv

/-- `const iterations = 100000` in `src/browser.ts`. -/
def browserIterations : Nat := 100000

/-- `const bytesize = 32` in `src/browser.ts`. -/
def browserBytesize : Nat := 32

/-- `browserGenerateKey(password, ivv)`: WebCrypto PBKDF2-SHA256 `deriveBits`
over the UTF-8 password bytes, `bytesize * 8` bits, salt decoded from
base64, result base64-encoded. -/
def browserGenerateKey (kdf : KdfFun) (password ivv : Bytes) : Bytes :=
  b64Encode (kdf password (nodeB64Decode ivv) browserIterations (browserBytesize * 8 / 8))

/-- `browserGenerateHash(password, ivv)`: two derivation passes, the second
taking the first's (string) output as the password. -/
def browserGenerateHash (kdf : KdfFun) (password ivv : Bytes) : Bytes :=
  browserGenerateKey kdf (browserGenerateKey kdf password ivv) ivv

/-! ## Variant browser implementation with a `base64Encoded` flag
(the repository's standalone `browser.ts`) -/

/-- A `password: string | Uint8Array` argument. -/
inductive PwInput
  | str (s : Bytes)
  | raw (b : Bytes)
deriving DecidableEq

/-- A `Promise<Uint8Array | string>` result of the flagged key derivation. -/
inductive KeyOut
  | str (s : Bytes)
  | raw (b : Bytes)
deriving DecidableEq

/-- `(password instanceof Uint8Array) ? password : encoder.encode(password)`. -/
def pwBytes : PwInput → Bytes
  | PwInput.str s => s
  | PwInput.raw b => b

/-- Flagged `browserGenerateKey(password, ivv, base64Encoded)`: derive 32
bytes; return them base64-encoded when the flag is set, raw otherwise. -/
def browserGenerateKeyFlag (kdf : KdfFun) (pw : PwInput) (ivv : Bytes)
    (base64Encoded : Bool) : KeyOut :=
  let bits := kdf (pwBytes pw) (nodeB64Decode ivv) 100000 32
  if base64Encoded then KeyOut.str (b64Encode bits) else KeyOut.raw bits

/-- Passing the first pass's result back in as the `password` argument: a
string stays a string, a `Uint8Array` stays a `Uint8Array`. -/
def keyOutAsPw : KeyOut → PwInput
  | KeyOut.str s => PwInput.str s
  | KeyOut.raw b => PwInput.raw b

/-- Decimal digit characters of `n` (fuel-driven so it reduces in the
kernel). -/
def decimalDigitsAux : Nat → Nat → Bytes
  | 0, _ => []
  | fuel + 1, n => if n < 10 then [48 + n] else decimalDigitsAux fuel (n / 10) ++ [48 + n % 10]

/-- Decimal digit characters of `n`. -/
def decimalDigits (n : Nat) : Bytes := decimalDigitsAux (n + 1) n

/-- JavaScript's default rendering of a `Uint8Array`: the bytes as decimal
numbers joined with `','` (code 44). -/
def jsUint8ArrayToString (b : Bytes) : Bytes :=
  List.intercalate [44] (b.map decimalDigits)

/-- `.toString()` on the flagged derivation result: identity on a string,
the JavaScript default rendering on a `Uint8Array`. -/
def keyOutToString : KeyOut → Bytes
  | KeyOut.str s => s
  | KeyOut.raw b => jsUint8ArrayToString b

/-- Flagged `browserGenerateHash(password, ivv, base64Encoded)`: two flagged
derivation passes, the second taking the first's result (string or raw
bytes) as the password, with `.toString()` applied to the result. -/
def browserGenerateHashFlag (kdf : KdfFun) (password ivv : Bytes)
    (base64Encoded : Bool) : Bytes :=
  keyOutToString (browserGenerateKeyFlag kdf
    (keyOutAsPw (browserGenerateKeyFlag kdf (PwInput.str password) ivv base64Encoded))
    ivv base64Encoded)

/-! ## Stream cipher operations (`nativeEncryptStream`, `nativeDecryptStream`)

The stream endpoints are `react-native-blob-util` read/write streams,
external to the repository; they are embedded with the semantics the
repository's test mocks give them: a read stream renders its underlying
bytes in its configured encoding and delivers the resulting text in
`bufferSize`-character chunks; a write stream decodes each written chunk
with its configured encoding. -/

/-- A stream endpoint encoding. -/
inductive StrEnc
  | utf8
  | base64
deriving DecidableEq

/-- Observable actions of one stream operation, in order. -/
inductive StreamEv
  | openSrc
  | updateEv
  | finalEv
  | writeEv (data : Bytes)
  | closeEv
  | resolveEv
  | rejectEv
deriving DecidableEq

/-- Failure modes of a stream operation. -/
inductive StreamErr
  | cipherInit
  | fromSource (code : Nat)
deriving DecidableEq

/-- Joint state of the two caller-owned endpoints, the sink's received
writes, the promise, the cipher context and the observable action trace. -/
structure StreamSt where
  srcEncoding : StrEnc
  srcBufferSize : Option Nat
  sinkEncoding : StrEnc
  sinkAppend : Bool
  writes : List Bytes
  closed : Bool
  outcome : Option (Except StreamErr Unit)
  ctx : CipherCtx
  trace : List StreamEv

/-- What the source endpoint signals over one operation: some chunks and
then end-of-data, or some chunks and then an error (exactly one terminal
signal fires). -/
inductive SourceOutcome
  | ends (chunks : List Bytes)
  | errs (chunks : List Bytes) (code : Nat)

/-- `inputStream.bufferSize = bufferSize ? bufferSize : inputStream.bufferSize`:
a provided value overrides only when it is truthy (non-zero). -/
def cfgBufferSize : Option Nat → Option Nat → Option Nat
  | none, old => old
  | some b, old => if b = 0 then old else some b

/-- A fresh pair of caller-owned endpoints with the given configuration and
an empty sink. -/
def freshSt (srcEnc0 : StrEnc) (srcBuf0 : Option Nat) (sinkEnc0 : StrEnc) : StreamSt :=
  { srcEncoding := srcEnc0, srcBufferSize := srcBuf0, sinkEncoding := sinkEnc0,
    sinkAppend := true, writes := [], closed := false, outcome := none,
    ctx := ⟨[], [], []⟩, trace := [] }

/-- Init phase of `nativeEncryptStream`: construct the cipher context, merge
the optional buffer size, set source encoding `'base64'`, sink encoding
`'utf8'`, `append = false`, and open the source. -/
def encInitSt (key ivv : Bytes) (bufferSize : Option Nat) (s0 : StreamSt) : StreamSt :=
  { s0 with ctx := ⟨nodeB64Decode key, nodeB64Decode ivv, []⟩,
            srcBufferSize := cfgBufferSize bufferSize s0.srcBufferSize,
            srcEncoding := StrEnc.base64, sinkEncoding := StrEnc.utf8,
            sinkAppend := false, trace := s0.trace ++ [StreamEv.openSrc] }

/-- `onData` handler of `nativeEncryptStream`:
`cipher.update(chunk, 'utf8', 'base64')` — the arriving chunk text is fed to
the cipher as UTF-8 text exactly as received — then write the base64 output. -/
def encOnData (enc : BlockFun) (s : StreamSt) (chunk : Bytes) : StreamSt :=
  let r := cipherUpdate enc s.ctx chunk
  { s with ctx := r.1, writes := s.writes ++ [b64Encode r.2],
           trace := s.trace ++ [StreamEv.updateEv, StreamEv.writeEv (b64Encode r.2)] }

/-- `onEnd` handler of `nativeEncryptStream`: `cipher.final('base64')`, write
it if non-empty, close the sink, resolve. -/
def encOnEnd (enc : BlockFun) (s : StreamSt) : StreamSt :=
  let fin := b64Encode (cipherFinal enc s.ctx)
  let s1 := { s with trace := s.trace ++ [StreamEv.finalEv] }
  let s2 :=
    if fin.length > 0 then
      { s1 with writes := s1.writes ++ [fin], trace := s1.trace ++ [StreamEv.writeEv fin] }
    else s1
  { s2 with closed := true, outcome := some (Except.ok ()),
            trace := s2.trace ++ [StreamEv.closeEv, StreamEv.resolveEv] }

/-- `onError` handler of both stream operations: reject with the signaled
error; the sink is neither written to nor closed. -/
def streamOnError (s : StreamSt) (code : Nat) : StreamSt :=
  { s with outcome := some (Except.error (StreamErr.fromSource code)),
           trace := s.trace ++ [StreamEv.rejectEv] }

/-- `nativeEncryptStream(key, ivv, inputStream, outputStream, bufferSize?)`
run against one complete source behavior. -/
def runEncryptStream (enc : BlockFun) (key ivv : Bytes) (bufferSize : Option Nat)
    (s0 : StreamSt) (src : SourceOutcome) : StreamSt :=
  if (nodeB64Decode key).length = 32 ∧ (nodeB64Decode ivv).length = 16 then
    let s1 := encInitSt key ivv bufferSize s0
    match src with
    | SourceOutcome.ends chunks => encOnEnd enc (chunks.foldl (encOnData enc) s1)
    | SourceOutcome.errs chunks code => streamOnError (chunks.foldl (encOnData enc) s1) code
  else { s0 with outcome := some (Except.error StreamErr.cipherInit) }

/-- Init phase of `nativeDecryptStream`: construct the decipher context,
merge the optional buffer size, set source encoding `'utf8'`, sink encoding
`'base64'`, `append = false`, and open the source. -/
def decInitSt (key ivv : Bytes) (bufferSize : Option Nat) (s0 : StreamSt) : StreamSt :=
  { s0 with ctx := ⟨nodeB64Decode key, nodeB64Decode ivv, []⟩,
            srcBufferSize := cfgBufferSize bufferSize s0.srcBufferSize,
            srcEncoding := StrEnc.utf8, sinkEncoding := StrEnc.base64,
            sinkAppend := false, trace := s0.trace ++ [StreamEv.openSrc] }

/-- `onData` handler of `nativeDecryptStream`:
`decipher.update(chunk, 'base64', 'utf8')` — the arriving chunk text is
base64-decoded by the cipher call (each chunk independently) — then write
the output text. -/
def decOnData (dec : BlockFun) (s : StreamSt) (chunk : Bytes) : StreamSt :=
  let r := decipherUpdate dec s.ctx (nodeB64Decode chunk)
  { s with ctx := r.1, writes := s.writes ++ [r.2],
           trace := s.trace ++ [StreamEv.updateEv, StreamEv.writeEv r.2] }

/-- `onEnd` handler of `nativeDecryptStream`: `decipher.final('utf8')`, write
it if non-empty, close the sink, resolve. When `final` throws (bad padding
or wrong final block length) the exception escapes the async callback: the
sink is not closed and the promise is never settled. -/
def decOnEnd (dec : BlockFun) (s : StreamSt) : StreamSt :=
  match decipherFinal dec s.ctx with
  | Except.ok fin =>
      let s1 := { s with trace := s.trace ++ [StreamEv.finalEv] }
      let s2 :=
        if fin.length > 0 then
          { s1 with writes := s1.writes ++ [fin], trace := s1.trace ++ [StreamEv.writeEv fin] }
        else s1
      { s2 with closed := true, outcome := some (Except.ok ()),
                trace := s2.trace ++ [StreamEv.closeEv, StreamEv.resolveEv] }
  | Except.error _ => { s with trace := s.trace ++ [StreamEv.finalEv] }

/-- `nativeDecryptStream(key, ivv, inputStream, outputStream, bufferSize?)`
run against one complete source behavior. -/
def runDecryptStream (dec : BlockFun) (key ivv : Bytes) (bufferSize : Option Nat)
    (s0 : StreamSt) (src : SourceOutcome) : StreamSt :=
  if (nodeB64Decode key).length = 32 ∧ (nodeB64Decode ivv).length = 16 then
    let s1 := decInitSt key ivv bufferSize s0
    match src with
    | SourceOutcome.ends chunks => decOnEnd dec (chunks.foldl (decOnData dec) s1)
    | SourceOutcome.errs chunks code => streamOnError (chunks.foldl (decOnData dec) s1) code
  else { s0 with outcome := some (Except.error StreamErr.cipherInit) }

/-- The streaming phase of `nativeEncryptStream` after init, before the
terminal signal. -/
def encStreamed (enc : BlockFun) (key ivv : Bytes) (bufferSize : Option Nat)
    (s0 : StreamSt) (chunks : List Bytes) : StreamSt :=
  chunks.foldl (encOnData enc) (encInitSt key ivv bufferSize s0)

/-- The streaming phase of `nativeDecryptStream` after init, before the
terminal signal. -/
def decStreamed (dec : BlockFun) (key ivv : Bytes) (bufferSize : Option Nat)
    (s0 : StreamSt) (chunks : List Bytes) : StreamSt :=
  chunks.foldl (decOnData dec) (decInitSt key ivv bufferSize s0)

/-! ## Endpoint data pipelines (read-stream chunking, sink contents) -/

/-- Split text into `n`-character chunks (fuel-driven). -/
def chunkifyAux : Nat → Nat → Bytes → List Bytes
  | _, _, [] => []
  | 0, _, l => [l]
  | fuel + 1, n, l => l.take n :: chunkifyAux fuel n (l.drop n)

/-- The chunks a read stream delivers for the given rendered text and buffer
size. -/
def chunkify (n : Nat) (l : Bytes) : List Bytes := chunkifyAux l.length n l

/-- Contents of a `'utf8'` write stream: the written chunks concatenated as
text. -/
def utf8SinkContents (s : StreamSt) : Bytes := s.writes.flatten

/-- Contents of a `'base64'` write stream: each written chunk base64-decoded
(independently, as the endpoint does per `write` call), concatenated. -/
def b64SinkContents (s : StreamSt) : Bytes := (s.writes.map nodeB64Decode).flatten

/-! ## Concrete instances used by witnesses and counterexamples -/

/-- The identity block permutation: the simplest provider satisfying the
block-cipher contract. -/
def idBlock : BlockFun := fun _ b => b

/-- A valid base64-encoded 32-byte key (32 zero bytes). -/
def keyA : Bytes := List.replicate 43 65 ++ [61]

/-- A valid base64-encoded 16-byte IVV (16 zero bytes). -/
def ivvA : Bytes := List.replicate 22 65 ++ [61, 61]

/-- The 16-character ASCII plaintext `"0123456789ABCDEF"`. -/
def plain16 : Bytes := [48, 49, 50, 51, 52, 53, 54, 55, 56, 57, 65, 66, 67, 68, 69, 70]

/-- The ciphertext `nativeEncryptText` produces for `plain16` under
`idBlock`, `keyA`, `ivvA`. -/
def ctC1 : Bytes := ((nativeEncryptText idBlock keyA ivvA plain16).toOption).getD []

/-- A concrete PBKDF2 stand-in whose first output byte records the password
length (mod 256); enough to distinguish passwords of different lengths. -/
def kdfW : KdfFun := fun pw _ _ len =>
  (List.range len).map (fun i => if i = 0 then pw.length % 256 else 37)

/-- A 24-byte plaintext (all zeros) for the stream round-trip evaluation. -/
def raw24 : Bytes := List.replicate 24 0

/-- Fresh endpoints as the repository's tests configure them (`utf8`,
default buffer size 1024). -/
def freshUtf8St : StreamSt := freshSt StrEnc.utf8 (some 1024) StrEnc.utf8

/-- `nativeEncryptStream` over `raw24` with buffer size 16: the source
renders the plaintext as base64 text and delivers it in 16-character
chunks. -/
def encRunC2 : StreamSt :=
  runEncryptStream idBlock keyA ivvA (some 16) freshUtf8St
    (SourceOutcome.ends (chunkify 16 (b64Encode raw24)))

/-- `nativeDecryptStream` over the sink text produced by `encRunC2`, with
buffer size 4096. -/
def decRunC2 : StreamSt :=
  runDecryptStream idBlock keyA ivvA (some 4096) freshUtf8St
    (SourceOutcome.ends (chunkify 4096 (utf8SinkContents encRunC2)))

/-- `nativeDecryptStream` fed one chunk of valid base64 that decodes to a
ciphertext block with invalid padding under `idBlock`. -/
def decRunBad : StreamSt :=
  runDecryptStream idBlock keyA ivvA none freshUtf8St
    (SourceOutcome.ends [b64Encode (List.replicate 16 65)])

/-- `nativeDecryptStream` fed one chunk of valid base64 that decodes to a
ciphertext block with valid (full-block) padding under `idBlock`. -/
def decChunkOk : Bytes := b64Encode (List.replicate 16 16)

/-- The encrypt-stream data handler as the C5 claim words it: the arriving
base64 chunk is decoded and the decoded bytes are fed to the cipher. Stated
from the claim, only to be compared with the code's `encOnData`. -/
def encOnDataSpecC5 (enc : BlockFun) (s : StreamSt) (chunk : Bytes) : StreamSt :=
  let r := cipherUpdate enc s.ctx (nodeB64Decode chunk)
  { s with ctx := r.1, writes := s.writes ++ [b64Encode r.2],
           trace := s.trace ++ [StreamEv.updateEv, StreamEv.writeEv (b64Encode r.2)] }

/-- The stream state right after `nativeEncryptStream`'s init phase on fresh
endpoints with `keyA`, `ivvA`. -/
def stC5 : StreamSt := encInitSt keyA ivvA none freshUtf8St

/-- A 16-character base64 chunk (`"AAAAAAAAAAAAAAAA"`). -/
def chunkC5 : Bytes := List.replicate 16 65

/-! ## Base64 lemmas -/

theorem unb64_b64Char : ∀ s, s < 64 → unb64 (b64Char s) = some s := by decide

theorem b64Char_ne_61 : ∀ s, s < 64 → b64Char s ≠ 61 := by decide

theorem stopAtPad_cons_ne {c : Nat} (l : Bytes) (h : c ≠ 61) :
    stopAtPad (c :: l) = c :: stopAtPad l := by
  simp [stopAtPad, h]

theorem nodeB64Decode_cons4 {c1 c2 c3 c4 s1 s2 s3 s4 : Nat} (l : Bytes)
    (h1 : unb64 c1 = some s1) (h2 : unb64 c2 = some s2)
    (h3 : unb64 c3 = some s3) (h4 : unb64 c4 = some s4)
    (n1 : c1 ≠ 61) (n2 : c2 ≠ 61) (n3 : c3 ≠ 61) (n4 : c4 ≠ 61) :
    nodeB64Decode (c1 :: c2 :: c3 :: c4 :: l) =
      (s1 * 4 + s2 / 16) :: (s2 % 16 * 16 + s3 / 4) :: (s3 % 4 * 64 + s4) ::
        nodeB64Decode l := by
  unfold nodeB64Decode
  rw [stopAtPad_cons_ne _ n1, stopAtPad_cons_ne _ n2, stopAtPad_cons_ne _ n3,
      stopAtPad_cons_ne _ n4]
  simp only [List.filterMap_cons, h1, h2, h3, h4]
  rfl

/-- Decoding inverts encoding for genuine byte sequences: the embedded
base64 pair is coherent. -/
theorem nodeB64Decode_b64Encode : ∀ l : Bytes, (∀ x ∈ l, x < 256) →
    nodeB64Decode (b64Encode l) = l
  | [], _ => rfl
  | [b1], h => by
      have hb : b1 < 256 := h b1 (by simp)
      have e1 := unb64_b64Char (b1 / 4) (by omega)
      have e2 := unb64_b64Char (b1 % 4 * 16) (by omega)
      have d1 := b64Char_ne_61 (b1 / 4) (by omega)
      have d2 := b64Char_ne_61 (b1 % 4 * 16) (by omega)
      show nodeB64Decode (b64Encode [b1]) = [b1]
      rw [b64Encode]
      unfold nodeB64Decode
      rw [stopAtPad_cons_ne _ d1, stopAtPad_cons_ne _ d2]
      simp only [stopAtPad, List.filterMap_cons, e1, e2, if_pos rfl, List.filterMap_nil]
      show sextetsToBytes [b1 / 4, b1 % 4 * 16] = [b1]
      rw [sextetsToBytes]
      simp only [List.cons.injEq, and_true]
      omega
  | [b1, b2], h => by
      have hb1 : b1 < 256 := h b1 (by simp)
      have hb2 : b2 < 256 := h b2 (by simp)
      have e1 := unb64_b64Char (b1 / 4) (by omega)
      have e2 := unb64_b64Char (b1 % 4 * 16 + b2 / 16) (by omega)
      have e3 := unb64_b64Char (b2 % 16 * 4) (by omega)
      have d1 := b64Char_ne_61 (b1 / 4) (by omega)
      have d2 := b64Char_ne_61 (b1 % 4 * 16 + b2 / 16) (by omega)
      have d3 := b64Char_ne_61 (b2 % 16 * 4) (by omega)
      show nodeB64Decode (b64Encode [b1, b2]) = [b1, b2]
      rw [b64Encode]
      unfold nodeB64Decode
      rw [stopAtPad_cons_ne _ d1, stopAtPad_cons_ne _ d2, stopAtPad_cons_ne _ d3]
      simp only [stopAtPad, List.filterMap_cons, e1, e2, e3, if_pos rfl, List.filterMap_nil]
      show sextetsToBytes [b1 / 4, b1 % 4 * 16 + b2 / 16, b2 % 16 * 4] = [b1, b2]
      rw [sextetsToBytes]
      simp only [List.cons.injEq, and_true]
      omega
  | b1 :: b2 :: b3 :: rest, h => by
      have hb1 : b1 < 256 := h b1 (by simp)
      have hb2 : b2 < 256 := h b2 (by simp)
      have hb3 : b3 < 256 := h b3 (by simp)
      have ih := nodeB64Decode_b64Encode rest (fun x hx => h x (by simp [hx]))
      rw [b64Encode,
          nodeB64Decode_cons4 _
            (unb64_b64Char (b1 / 4) (by omega))
            (unb64_b64Char (b1 % 4 * 16 + b2 / 16) (by omega))
            (unb64_b64Char (b2 % 16 * 4 + b3 / 64) (by omega))
            (unb64_b64Char (b3 % 64) (by omega))
            (b64Char_ne_61 (b1 / 4) (by omega))
            (b64Char_ne_61 (b1 % 4 * 16 + b2 / 16) (by omega))
            (b64Char_ne_61 (b2 % 16 * 4 + b3 / 64) (by omega))
            (b64Char_ne_61 (b3 % 64) (by omega)),
          ih]
      simp only [List.cons.injEq, and_true]
      refine ⟨by omega, by omega, by omega⟩

/-- Length of a padded base64 rendering. -/
theorem b64Encode_length : ∀ l : Bytes, (b64Encode l).length = 4 * ((l.length + 2) / 3)
  | [] => rfl
  | [_] => by rw [b64Encode]; simp
  | [_, _] => by rw [b64Encode]; simp
  | _ :: _ :: _ :: rest => by
      rw [b64Encode]
      simp only [List.length_cons, b64Encode_length rest]
      omega

/-! ## Stream handler invariants -/

theorem encOnData_cfg (enc : BlockFun) (s : StreamSt) (c : Bytes) :
    (encOnData enc s c).srcEncoding = s.srcEncoding ∧
    (encOnData enc s c).srcBufferSize = s.srcBufferSize ∧
    (encOnData enc s c).sinkEncoding = s.sinkEncoding ∧
    (encOnData enc s c).closed = s.closed ∧
    (encOnData enc s c).outcome = s.outcome ∧
    (StreamEv.finalEv ∈ (encOnData enc s c).trace ↔ StreamEv.finalEv ∈ s.trace) := by
  refine ⟨rfl, rfl, rfl, rfl, rfl, ?_⟩
  simp [encOnData]

theorem decOnData_cfg (dec : BlockFun) (s : StreamSt) (c : Bytes) :
    (decOnData dec s c).srcEncoding = s.srcEncoding ∧
    (decOnData dec s c).srcBufferSize = s.srcBufferSize ∧
    (decOnData dec s c).sinkEncoding = s.sinkEncoding ∧
    (decOnData dec s c).closed = s.closed ∧
    (decOnData dec s c).outcome = s.outcome ∧
    (StreamEv.finalEv ∈ (decOnData dec s c).trace ↔ StreamEv.finalEv ∈ s.trace) := by
  refine ⟨rfl, rfl, rfl, rfl, rfl, ?_⟩
  simp [decOnData]

theorem foldl_encOnData_cfg (enc : BlockFun) :
    ∀ (chunks : List Bytes) (s : StreamSt),
    (chunks.foldl (encOnData enc) s).srcEncoding = s.srcEncoding ∧
    (chunks.foldl (encOnData enc) s).srcBufferSize = s.srcBufferSize ∧
    (chunks.foldl (encOnData enc) s).sinkEncoding = s.sinkEncoding ∧
    (chunks.foldl (encOnData enc) s).closed = s.closed ∧
    (chunks.foldl (encOnData enc) s).outcome = s.outcome ∧
    (StreamEv.finalEv ∈ (chunks.foldl (encOnData enc) s).trace ↔ StreamEv.finalEv ∈ s.trace)
  | [], s => ⟨rfl, rfl, rfl, rfl, rfl, Iff.rfl⟩
  | c :: cs, s => by
      have ih := foldl_encOnData_cfg enc cs (encOnData enc s c)
      have hc := encOnData_cfg enc s c
      simp only [List.foldl_cons]
      exact ⟨ih.1.trans hc.1, ih.2.1.trans hc.2.1, ih.2.2.1.trans hc.2.2.1,
        ih.2.2.2.1.trans hc.2.2.2.1, ih.2.2.2.2.1.trans hc.2.2.2.2.1,
        ih.2.2.2.2.2.trans hc.2.2.2.2.2⟩

theorem foldl_decOnData_cfg (dec : BlockFun) :
    ∀ (chunks : List Bytes) (s : StreamSt),
    (chunks.foldl (decOnData dec) s).srcEncoding = s.srcEncoding ∧
    (chunks.foldl (decOnData dec) s).srcBufferSize = s.srcBufferSize ∧
    (chunks.foldl (decOnData dec) s).sinkEncoding = s.sinkEncoding ∧
    (chunks.foldl (decOnData dec) s).closed = s.closed ∧
    (chunks.foldl (decOnData dec) s).outcome = s.outcome ∧
    (StreamEv.finalEv ∈ (chunks.foldl (decOnData dec) s).trace ↔ StreamEv.finalEv ∈ s.trace)
  | [], s => ⟨rfl, rfl, rfl, rfl, rfl, Iff.rfl⟩
  | c :: cs, s => by
      have ih := foldl_decOnData_cfg dec cs (decOnData dec s c)
      have hc := decOnData_cfg dec s c
      simp only [List.foldl_cons]
      exact ⟨ih.1.trans hc.1, ih.2.1.trans hc.2.1, ih.2.2.1.trans hc.2.2.1,
        ih.2.2.2.1.trans hc.2.2.2.1, ih.2.2.2.2.1.trans hc.2.2.2.2.1,
        ih.2.2.2.2.2.trans hc.2.2.2.2.2⟩

/-! ## Claim C3 -/

/-- C3: for every password and salt, the fingerprint hash is the key
derivation applied twice — the first pass's output is fed as the second
pass's password with the same salt — in both the native and the browser
implementation. -/
theorem claimC3_hash_is_double_derivation (kdf : KdfFun) (p ivv : Bytes) :
    nativeGenerateHash kdf p ivv =
      nativeGenerateKey kdf (nativeGenerateKey kdf p ivv) ivv ∧
    browserGenerateHash kdf p ivv =
      browserGenerateKey kdf (browserGenerateKey kdf p ivv) ivv ∧
    nativeGenerateHash kdf p ivv =
      b64Encode (kdf (b64Encode (kdf p (nodeB64Decode ivv) 100000 32))
        (nodeB64Decode ivv) 100000 32) :=
  ⟨rfl, rfl, rfl⟩

/-! ## Claim C4 -/

/-- C4: for every password and base64 salt, the native and browser key
derivations agree, both being the abstract PBKDF2-HMAC-SHA256 primitive at
100000 iterations and 32 output bytes over the UTF-8 password bytes and the
base64-decoded salt, base64-encoded. -/
theorem claimC4_native_eq_browser_key (kdf : KdfFun) (p ivv : Bytes) :
    nativeGenerateKey kdf p ivv = browserGenerateKey kdf p ivv ∧
    nativeGenerateKey kdf p ivv =
      b64Encode (kdf p (nodeB64Decode ivv) 100000 32) :=
  ⟨rfl, rfl⟩

/-! ## Claim C8 -/

/-- C8: for every key and ivv that decode to the required lengths and every
length-preserving block cipher, text-mode encryption of the empty plaintext
succeeds, returns exactly the base64 of the padded finalization block, and
is non-empty — for the native and the browser implementation alike. -/
theorem claimC8_empty_plaintext (enc : BlockFun) (key ivv : Bytes)
    (hk : (nodeB64Decode key).length = 32)
    (hiv : (nodeB64Decode ivv).length = 16)
    (hlen : ∀ k b, b.length = 16 → (enc k b).length = 16) :
    nativeEncryptText enc key ivv [] =
      Except.ok (b64Encode (cipherFinal enc ⟨nodeB64Decode key, nodeB64Decode ivv, []⟩)) ∧
    nativeEncryptText enc key ivv [] ≠ Except.ok [] ∧
    browserEncryptText enc key ivv [] =
      Except.ok (b64Encode (cipherFinal enc ⟨nodeB64Decode key, nodeB64Decode ivv, []⟩)) ∧
    browserEncryptText enc key ivv [] ≠ Except.ok [] := by
  have hpad : toBlocks (pkcs7pad ([] : Bytes)) = [List.replicate 16 16] := rfl
  have hfin : cipherFinal enc ⟨nodeB64Decode key, nodeB64Decode ivv, []⟩ =
      enc (nodeB64Decode key) (zipXor (nodeB64Decode ivv) (List.replicate 16 16)) := by
    simp [cipherFinal, hpad, cbcEncBlocks]
  have hfinlen : (cipherFinal enc ⟨nodeB64Decode key, nodeB64Decode ivv, []⟩).length = 16 := by
    rw [hfin]
    refine hlen _ _ ?_
    simp [zipXor, hiv]
  have hne : b64Encode (cipherFinal enc ⟨nodeB64Decode key, nodeB64Decode ivv, []⟩) ≠ [] := by
    intro hcontra
    have := b64Encode_length (cipherFinal enc ⟨nodeB64Decode key, nodeB64Decode ivv, []⟩)
    rw [hcontra, hfinlen] at this
    simp at this
  have henc : nativeEncryptText enc key ivv [] =
      Except.ok (b64Encode (cipherFinal enc ⟨nodeB64Decode key, nodeB64Decode ivv, []⟩)) := by
    simp only [nativeEncryptText, hk, hiv, and_self, if_true]
    have hupd : cipherUpdate enc ⟨nodeB64Decode key, nodeB64Decode ivv, []⟩ [] =
        (⟨nodeB64Decode key, nodeB64Decode ivv, []⟩, []) := rfl
    rw [hupd]
    rfl
  have hbrw : browserEncryptText enc key ivv [] =
      Except.ok (b64Encode (cipherFinal enc ⟨nodeB64Decode key, nodeB64Decode ivv, []⟩)) := by
    simp only [browserEncryptText, hk, hiv, and_self, if_true, cipherFinal]
  refine ⟨henc, ?_, hbrw, ?_⟩
  · rw [henc]
    intro hcontra
    exact hne (Except.ok.inj hcontra)
  · rw [hbrw]
    intro hcontra
    exact hne (Except.ok.inj hcontra)

/-- C8 witness: concrete instance with the identity block cipher. -/
theorem claimC8_empty_plaintext_w :
    nativeEncryptText idBlock keyA ivvA [] ≠ Except.ok [] :=
  (claimC8_empty_plaintext idBlock keyA ivvA (by decide) (by decide)
    (fun _ b h => h)).2.1

/-! ## Claim C1 -/

/-- C1 fails on the code: for the 16-character plaintext `"0123456789ABCDEF"`
(under the identity block cipher, a zero key and a zero IVV) text-mode
encryption succeeds, but decrypting its output with the identical key and
ivv throws `bad decrypt` instead of returning the plaintext: the `update`
segment's base64 ends in `'='`, `final`'s base64 is appended after it, and
`nativeDecryptText`'s base64 decoding of the ciphertext stops at that first
`'='`, so the finalization block never reaches the decipher. -/
theorem claimC1_roundtrip_fails :
    nativeEncryptText idBlock keyA ivvA plain16 = Except.ok ctC1 ∧
    ctC1 ≠ [] ∧
    nativeDecryptText idBlock keyA ivvA ctC1 = Except.error "bad decrypt" ∧
    nativeDecryptText idBlock keyA ivvA ctC1 ≠ Except.ok plain16 := by
  refine ⟨rfl, by decide, rfl, ?_⟩
  intro hcontra
  have h1 : nativeDecryptText idBlock keyA ivvA ctC1 = Except.error "bad decrypt" := rfl
  rw [h1] at hcontra
  exact Except.noConfusion hcontra

/-! ## Claim C2 -/

/-- C2 fails on the code: stream-encrypting the 24-byte plaintext `raw24`
with buffer size 16 resolves successfully, but stream-decrypting the
resulting sink contents with buffer size 4096 never settles (the decipher's
finalization throws) and its sink holds no plaintext at all: the two
16-character update segments each end in base64 `'='` padding, and the
decrypt side base64-decodes each source chunk independently, stopping at
the first embedded `'='`. -/
theorem claimC2_chunk_invariance_fails :
    encRunC2.outcome = some (Except.ok ()) ∧
    decRunC2.outcome = none ∧
    decRunC2.closed = false ∧
    b64SinkContents decRunC2 ≠ raw24 :=
  ⟨rfl, rfl, rfl, by decide⟩

/-! ## Claim C9 -/

/-- C9, amended: a provided buffer size overrides the source endpoint's
field only when it is non-zero (`bufferSize ? bufferSize : old` — `0` is
falsy); an omitted or zero parameter leaves the field unchanged. Holds for
both stream operations. -/
theorem claimC9_bufferSize_config (enc dec : BlockFun) (key ivv : Bytes)
    (bs : Option Nat) (s0 : StreamSt) (src : SourceOutcome)
    (hk : (nodeB64Decode key).length = 32)
    (hiv : (nodeB64Decode ivv).length = 16) :
    (runEncryptStream enc key ivv bs s0 src).srcBufferSize =
      (match bs with
        | none => s0.srcBufferSize
        | some b => if b = 0 then s0.srcBufferSize else some b) ∧
    (runDecryptStream dec key ivv bs s0 src).srcBufferSize =
      (match bs with
        | none => s0.srcBufferSize
        | some b => if b = 0 then s0.srcBufferSize else some b) := by
  constructor
  · simp only [runEncryptStream, hk, hiv, and_self, if_true]
    cases src with
    | ends chunks =>
        have h1 : (encOnEnd enc ((chunks.foldl (encOnData enc)) (encInitSt key ivv bs s0))).srcBufferSize =
            ((chunks.foldl (encOnData enc)) (encInitSt key ivv bs s0)).srcBufferSize := by
          simp only [encOnEnd]
          split <;> rfl
        rw [h1, (foldl_encOnData_cfg enc chunks (encInitSt key ivv bs s0)).2.1]
        cases bs with
        | none => rfl
        | some b => rfl
    | errs chunks code =>
        have h1 : (streamOnError ((chunks.foldl (encOnData enc)) (encInitSt key ivv bs s0)) code).srcBufferSize =
            ((chunks.foldl (encOnData enc)) (encInitSt key ivv bs s0)).srcBufferSize := rfl
        rw [h1, (foldl_encOnData_cfg enc chunks (encInitSt key ivv bs s0)).2.1]
        cases bs with
        | none => rfl
        | some b => rfl
  · simp only [runDecryptStream, hk, hiv, and_self, if_true]
    cases src with
    | ends chunks =>
        have h1 : (decOnEnd dec ((chunks.foldl (decOnData dec)) (decInitSt key ivv bs s0))).srcBufferSize =
            ((chunks.foldl (decOnData dec)) (decInitSt key ivv bs s0)).srcBufferSize := by
          simp only [decOnEnd]
          split
          · split <;> rfl
          · rfl
        rw [h1, (foldl_decOnData_cfg dec chunks (decInitSt key ivv bs s0)).2.1]
        cases bs with
        | none => rfl
        | some b => rfl
    | errs chunks code =>
        have h1 : (streamOnError ((chunks.foldl (decOnData dec)) (decInitSt key ivv bs s0)) code).srcBufferSize =
            ((chunks.foldl (decOnData dec)) (decInitSt key ivv bs s0)).srcBufferSize := rfl
        rw [h1, (foldl_decOnData_cfg dec chunks (decInitSt key ivv bs s0)).2.1]
        cases bs with
        | none => rfl
        | some b => rfl

/-- C9 witness: a non-zero provided buffer size does override. -/
theorem claimC9_bufferSize_config_w :
    (runEncryptStream idBlock keyA ivvA (some 2048) freshUtf8St
      (SourceOutcome.ends [])).srcBufferSize = some 2048 := by
  have h := (claimC9_bufferSize_config idBlock idBlock keyA ivvA (some 2048)
    freshUtf8St (SourceOutcome.ends []) (by decide) (by decide)).1
  simpa using h

/-- C9 counterexample: the claim says a provided value is always written to
the field, but a provided `0` is falsy and the field keeps its old value
`some 1024`. -/
theorem claimC9_bufferSize_zero_counterexample :
    (runEncryptStream idBlock keyA ivvA (some 0) freshUtf8St
      (SourceOutcome.ends [])).srcBufferSize = some 1024 ∧
    (some 1024 : Option Nat) ≠ some 0 :=
  ⟨rfl, by decide⟩

/-! ## Terminal-handler invariants -/

theorem streamOnError_cfg (s : StreamSt) (code : Nat) :
    (streamOnError s code).srcEncoding = s.srcEncoding ∧
    (streamOnError s code).srcBufferSize = s.srcBufferSize ∧
    (streamOnError s code).sinkEncoding = s.sinkEncoding ∧
    (streamOnError s code).closed = s.closed ∧
    (streamOnError s code).writes = s.writes :=
  ⟨rfl, rfl, rfl, rfl, rfl⟩

theorem encOnEnd_cfg (enc : BlockFun) (s : StreamSt) :
    (encOnEnd enc s).srcEncoding = s.srcEncoding ∧
    (encOnEnd enc s).srcBufferSize = s.srcBufferSize ∧
    (encOnEnd enc s).sinkEncoding = s.sinkEncoding := by
  simp only [encOnEnd]
  split <;> exact ⟨rfl, rfl, rfl⟩

theorem decOnEnd_cfg (dec : BlockFun) (s : StreamSt) :
    (decOnEnd dec s).srcEncoding = s.srcEncoding ∧
    (decOnEnd dec s).srcBufferSize = s.srcBufferSize ∧
    (decOnEnd dec s).sinkEncoding = s.sinkEncoding := by
  simp only [decOnEnd]
  split
  · split <;> exact ⟨rfl, rfl, rfl⟩
  · exact ⟨rfl, rfl, rfl⟩

/-! ## Claim C5 -/

/-- C5, amended: the stream operations set the endpoint encodings exactly
per the rule table — encryption reads base64 and writes UTF-8 text,
decryption reads UTF-8 text and writes base64 — but on encryption each
arriving base64 chunk is fed to the cipher as UTF-8 text exactly as
received; it is not base64-decoded first. -/
theorem claimC5_stream_encodings (enc dec : BlockFun) (key ivv : Bytes)
    (bs : Option Nat) (s0 : StreamSt) (src : SourceOutcome)
    (hk : (nodeB64Decode key).length = 32)
    (hiv : (nodeB64Decode ivv).length = 16) :
    (runEncryptStream enc key ivv bs s0 src).srcEncoding = StrEnc.base64 ∧
    (runEncryptStream enc key ivv bs s0 src).sinkEncoding = StrEnc.utf8 ∧
    (∀ s c, (encOnData enc s c).writes =
        s.writes ++ [b64Encode (cipherUpdate enc s.ctx c).2] ∧
      (encOnData enc s c).ctx = (cipherUpdate enc s.ctx c).1) ∧
    (runDecryptStream dec key ivv bs s0 src).srcEncoding = StrEnc.utf8 ∧
    (runDecryptStream dec key ivv bs s0 src).sinkEncoding = StrEnc.base64 ∧
    (∀ s c, (decOnData dec s c).writes =
        s.writes ++ [(decipherUpdate dec s.ctx (nodeB64Decode c)).2] ∧
      (decOnData dec s c).ctx = (decipherUpdate dec s.ctx (nodeB64Decode c)).1) := by
  refine ⟨?_, ?_, fun s c => ⟨rfl, rfl⟩, ?_, ?_, fun s c => ⟨rfl, rfl⟩⟩
  · simp only [runEncryptStream, hk, hiv, and_self, if_true]
    cases src with
    | ends chunks =>
        rw [(encOnEnd_cfg enc _).1,
            (foldl_encOnData_cfg enc chunks (encInitSt key ivv bs s0)).1]
        rfl
    | errs chunks code =>
        rw [(streamOnError_cfg _ code).1,
            (foldl_encOnData_cfg enc chunks (encInitSt key ivv bs s0)).1]
        rfl
  · simp only [runEncryptStream, hk, hiv, and_self, if_true]
    cases src with
    | ends chunks =>
        rw [(encOnEnd_cfg enc _).2.2,
            (foldl_encOnData_cfg enc chunks (encInitSt key ivv bs s0)).2.2.1]
        rfl
    | errs chunks code =>
        rw [(streamOnError_cfg _ code).2.2.1,
            (foldl_encOnData_cfg enc chunks (encInitSt key ivv bs s0)).2.2.1]
        rfl
  · simp only [runDecryptStream, hk, hiv, and_self, if_true]
    cases src with
    | ends chunks =>
        rw [(decOnEnd_cfg dec _).1,
            (foldl_decOnData_cfg dec chunks (decInitSt key ivv bs s0)).1]
        rfl
    | errs chunks code =>
        rw [(streamOnError_cfg _ code).1,
            (foldl_decOnData_cfg dec chunks (decInitSt key ivv bs s0)).1]
        rfl
  · simp only [runDecryptStream, hk, hiv, and_self, if_true]
    cases src with
    | ends chunks =>
        rw [(decOnEnd_cfg dec _).2.2,
            (foldl_decOnData_cfg dec chunks (decInitSt key ivv bs s0)).2.2.1]
        rfl
    | errs chunks code =>
        rw [(streamOnError_cfg _ code).2.2.1,
            (foldl_decOnData_cfg dec chunks (decInitSt key ivv bs s0)).2.2.1]
        rfl

/-- C5 witness: concrete endpoints really end up configured per the table. -/
theorem claimC5_stream_encodings_w :
    (runEncryptStream idBlock keyA ivvA none freshUtf8St
      (SourceOutcome.ends [])).srcEncoding = StrEnc.base64 ∧
    (runDecryptStream idBlock keyA ivvA none freshUtf8St
      (SourceOutcome.ends [])).sinkEncoding = StrEnc.base64 := by
  have h := claimC5_stream_encodings idBlock idBlock keyA ivvA none freshUtf8St
    (SourceOutcome.ends []) (by decide) (by decide)
  exact ⟨h.1, h.2.2.2.2.1⟩

/-- C5 counterexample: the claim says each arriving base64 chunk is decoded
before being fed to the cipher; on the 16-character chunk `"AAAAAAAAAAAAAAAA"`
the code's handler writes the encryption of the chunk text itself, which
differs from what the claimed decoded-form handler would write. -/
theorem claimC5_chunk_not_decoded_counterexample :
    (encOnData idBlock stC5 chunkC5).writes ≠ (encOnDataSpecC5 idBlock stC5 chunkC5).writes := by
  decide

/-! ## Claim C6 -/

/-- C6, amended: when the source signals end-of-data the operation invokes
the cipher context's finalization exactly once; when finalization succeeds
(always the case for encryption), its output is written to the sink iff it
is non-empty, then the sink is closed, then the operation resolves, in that
order; when decryption finalization throws (bad padding or truncated
ciphertext), nothing further happens — no write, no close, and the
operation never settles. -/
theorem claimC6_finalization (enc dec : BlockFun) (key ivv : Bytes) (bs : Option Nat)
    (e0 k0 : StrEnc) (b0 : Option Nat) (chunks : List Bytes)
    (hk : (nodeB64Decode key).length = 32)
    (hiv : (nodeB64Decode ivv).length = 16) :
    (runEncryptStream enc key ivv bs (freshSt e0 b0 k0) (SourceOutcome.ends chunks)).trace =
      (encStreamed enc key ivv bs (freshSt e0 b0 k0) chunks).trace ++ [StreamEv.finalEv] ++
        (if (b64Encode (cipherFinal enc (encStreamed enc key ivv bs (freshSt e0 b0 k0) chunks).ctx)).length > 0
          then [StreamEv.writeEv (b64Encode (cipherFinal enc (encStreamed enc key ivv bs (freshSt e0 b0 k0) chunks).ctx))]
          else []) ++ [StreamEv.closeEv, StreamEv.resolveEv] ∧
    StreamEv.finalEv ∉ (encStreamed enc key ivv bs (freshSt e0 b0 k0) chunks).trace ∧
    (runEncryptStream enc key ivv bs (freshSt e0 b0 k0) (SourceOutcome.ends chunks)).closed = true ∧
    (runEncryptStream enc key ivv bs (freshSt e0 b0 k0) (SourceOutcome.ends chunks)).outcome =
      some (Except.ok ()) ∧
    (∀ fin, decipherFinal dec (decStreamed dec key ivv bs (freshSt e0 b0 k0) chunks).ctx = Except.ok fin →
      (runDecryptStream dec key ivv bs (freshSt e0 b0 k0) (SourceOutcome.ends chunks)).trace =
        (decStreamed dec key ivv bs (freshSt e0 b0 k0) chunks).trace ++ [StreamEv.finalEv] ++
          (if fin.length > 0 then [StreamEv.writeEv fin] else []) ++
          [StreamEv.closeEv, StreamEv.resolveEv] ∧
      (runDecryptStream dec key ivv bs (freshSt e0 b0 k0) (SourceOutcome.ends chunks)).closed = true ∧
      (runDecryptStream dec key ivv bs (freshSt e0 b0 k0) (SourceOutcome.ends chunks)).outcome =
        some (Except.ok ())) ∧
    (∀ msg, decipherFinal dec (decStreamed dec key ivv bs (freshSt e0 b0 k0) chunks).ctx = Except.error msg →
      (runDecryptStream dec key ivv bs (freshSt e0 b0 k0) (SourceOutcome.ends chunks)).trace =
        (decStreamed dec key ivv bs (freshSt e0 b0 k0) chunks).trace ++ [StreamEv.finalEv] ∧
      (runDecryptStream dec key ivv bs (freshSt e0 b0 k0) (SourceOutcome.ends chunks)).writes =
        (decStreamed dec key ivv bs (freshSt e0 b0 k0) chunks).writes ∧
      (runDecryptStream dec key ivv bs (freshSt e0 b0 k0) (SourceOutcome.ends chunks)).closed = false ∧
      (runDecryptStream dec key ivv bs (freshSt e0 b0 k0) (SourceOutcome.ends chunks)).outcome = none) := by
  have hrunE : runEncryptStream enc key ivv bs (freshSt e0 b0 k0) (SourceOutcome.ends chunks) =
      encOnEnd enc (encStreamed enc key ivv bs (freshSt e0 b0 k0) chunks) := by
    simp only [runEncryptStream, hk, hiv, and_self, if_true]
    rfl
  have hrunD : runDecryptStream dec key ivv bs (freshSt e0 b0 k0) (SourceOutcome.ends chunks) =
      decOnEnd dec (decStreamed dec key ivv bs (freshSt e0 b0 k0) chunks) := by
    simp only [runDecryptStream, hk, hiv, and_self, if_true]
    rfl
  refine ⟨?_, ?_, by rw [hrunE]; simp [encOnEnd], by rw [hrunE]; simp [encOnEnd], ?_, ?_⟩
  · rw [hrunE]
    by_cases hf : (b64Encode (cipherFinal enc (encStreamed enc key ivv bs (freshSt e0 b0 k0) chunks).ctx)).length > 0
    · simp only [encOnEnd, hf, if_true, List.append_assoc]
    · simp only [encOnEnd, hf, if_false, List.append_assoc, List.nil_append]
  · show StreamEv.finalEv ∉
      (List.foldl (encOnData enc) (encInitSt key ivv bs (freshSt e0 b0 k0)) chunks).trace
    rw [(foldl_encOnData_cfg enc chunks (encInitSt key ivv bs (freshSt e0 b0 k0))).2.2.2.2.2]
    simp [encInitSt, freshSt]
  · intro fin hfin
    rw [hrunD]
    refine ⟨?_, by simp only [decOnEnd, hfin], by simp only [decOnEnd, hfin]⟩
    by_cases hf : fin.length > 0
    · simp only [decOnEnd, hfin, hf, if_true, List.append_assoc]
    · simp only [decOnEnd, hfin, hf, if_false, List.append_assoc, List.nil_append]
  · intro msg hmsg
    rw [hrunD]
    refine ⟨by simp only [decOnEnd, hmsg], by simp only [decOnEnd, hmsg], ?_, ?_⟩
    · simp only [decOnEnd, hmsg]
      show (List.foldl (decOnData dec) (decInitSt key ivv bs (freshSt e0 b0 k0)) chunks).closed = false
      rw [(foldl_decOnData_cfg dec chunks (decInitSt key ivv bs (freshSt e0 b0 k0))).2.2.2.1]
      rfl
    · simp only [decOnEnd, hmsg]
      show (List.foldl (decOnData dec) (decInitSt key ivv bs (freshSt e0 b0 k0)) chunks).outcome = none
      rw [(foldl_decOnData_cfg dec chunks (decInitSt key ivv bs (freshSt e0 b0 k0))).2.2.2.2.1]
      rfl

/-- C6 witness: concrete successful runs — encryption with one chunk, and
decryption of a valid final block (whose finalization output is empty, so
nothing is written before close and resolve). -/
theorem claimC6_finalization_w :
    (runEncryptStream idBlock keyA ivvA none (freshSt StrEnc.utf8 (some 1024) StrEnc.utf8)
      (SourceOutcome.ends [chunkC5])).closed = true ∧
    (runDecryptStream idBlock keyA ivvA none (freshSt StrEnc.utf8 (some 1024) StrEnc.utf8)
      (SourceOutcome.ends [decChunkOk])).outcome = some (Except.ok ()) := by
  have h1 := claimC6_finalization idBlock idBlock keyA ivvA none StrEnc.utf8 StrEnc.utf8
    (some 1024) [chunkC5] (by decide) (by decide)
  have h2 := claimC6_finalization idBlock idBlock keyA ivvA none StrEnc.utf8 StrEnc.utf8
    (some 1024) [decChunkOk] (by decide) (by decide)
  exact ⟨h1.2.2.1, (h2.2.2.2.2.1 [] rfl).2.2⟩

/-- C6 counterexample: after end-of-data on a chunk that decodes to a
ciphertext block with invalid padding, finalization throws: the sink is not
closed and the operation does not resolve, contrary to the claim's
unconditional close-then-resolve. -/
theorem claimC6_finalization_counterexample :
    decRunBad.closed = false ∧ decRunBad.outcome = none :=
  ⟨rfl, rfl⟩

/-! ## Claim C7 -/

/-- C7: when the source signals an error, both stream operations reject
with exactly the signaled error, do not close the sink, and leave every
chunk already written to the sink in place. -/
theorem claimC7_error_path (enc dec : BlockFun) (key ivv : Bytes) (bs : Option Nat)
    (e0 k0 : StrEnc) (b0 : Option Nat) (chunks : List Bytes) (code : Nat)
    (hk : (nodeB64Decode key).length = 32)
    (hiv : (nodeB64Decode ivv).length = 16) :
    (runEncryptStream enc key ivv bs (freshSt e0 b0 k0) (SourceOutcome.errs chunks code)).outcome =
      some (Except.error (StreamErr.fromSource code)) ∧
    (runEncryptStream enc key ivv bs (freshSt e0 b0 k0) (SourceOutcome.errs chunks code)).closed = false ∧
    (runEncryptStream enc key ivv bs (freshSt e0 b0 k0) (SourceOutcome.errs chunks code)).writes =
      (encStreamed enc key ivv bs (freshSt e0 b0 k0) chunks).writes ∧
    (runEncryptStream enc key ivv bs (freshSt e0 b0 k0) (SourceOutcome.errs chunks code)).trace =
      (encStreamed enc key ivv bs (freshSt e0 b0 k0) chunks).trace ++ [StreamEv.rejectEv] ∧
    (runDecryptStream dec key ivv bs (freshSt e0 b0 k0) (SourceOutcome.errs chunks code)).outcome =
      some (Except.error (StreamErr.fromSource code)) ∧
    (runDecryptStream dec key ivv bs (freshSt e0 b0 k0) (SourceOutcome.errs chunks code)).closed = false ∧
    (runDecryptStream dec key ivv bs (freshSt e0 b0 k0) (SourceOutcome.errs chunks code)).writes =
      (decStreamed dec key ivv bs (freshSt e0 b0 k0) chunks).writes ∧
    (runDecryptStream dec key ivv bs (freshSt e0 b0 k0) (SourceOutcome.errs chunks code)).trace =
      (decStreamed dec key ivv bs (freshSt e0 b0 k0) chunks).trace ++ [StreamEv.rejectEv] := by
  have hrunE : runEncryptStream enc key ivv bs (freshSt e0 b0 k0) (SourceOutcome.errs chunks code) =
      streamOnError (encStreamed enc key ivv bs (freshSt e0 b0 k0) chunks) code := by
    simp only [runEncryptStream, hk, hiv, and_self, if_true]
    rfl
  have hrunD : runDecryptStream dec key ivv bs (freshSt e0 b0 k0) (SourceOutcome.errs chunks code) =
      streamOnError (decStreamed dec key ivv bs (freshSt e0 b0 k0) chunks) code := by
    simp only [runDecryptStream, hk, hiv, and_self, if_true]
    rfl
  rw [hrunE, hrunD]
  refine ⟨rfl, ?_, rfl, rfl, rfl, ?_, rfl, rfl⟩
  · show (List.foldl (encOnData enc) (encInitSt key ivv bs (freshSt e0 b0 k0)) chunks).closed = false
    rw [(foldl_encOnData_cfg enc chunks (encInitSt key ivv bs (freshSt e0 b0 k0))).2.2.2.1]
    rfl
  · show (List.foldl (decOnData dec) (decInitSt key ivv bs (freshSt e0 b0 k0)) chunks).closed = false
    rw [(foldl_decOnData_cfg dec chunks (decInitSt key ivv bs (freshSt e0 b0 k0))).2.2.2.1]
    rfl

/-- C7 witness: a concrete errored run rejects with the signaled error and
keeps the one chunk already written. -/
theorem claimC7_error_path_w :
    (runEncryptStream idBlock keyA ivvA none (freshSt StrEnc.utf8 (some 1024) StrEnc.utf8)
      (SourceOutcome.errs [chunkC5] 7)).outcome =
      some (Except.error (StreamErr.fromSource 7)) ∧
    (runEncryptStream idBlock keyA ivvA none (freshSt StrEnc.utf8 (some 1024) StrEnc.utf8)
      (SourceOutcome.errs [chunkC5] 7)).closed = false := by
  have h := claimC7_error_path idBlock idBlock keyA ivvA none StrEnc.utf8 StrEnc.utf8
    (some 1024) [chunkC5] 7 (by decide) (by decide)
  exact ⟨h.1, h.2.1⟩

/-! ## Claim C10 -/

/-- C10: in the flagged browser variant, `browserGenerateHash` with
`base64Encoded = false` returns the JavaScript default comma-separated
decimal rendering of the 32-byte second-pass output, feeds the first pass's
raw bytes (not its base64 text, whose length even differs) as the second
pass's password, and therefore — whenever the derivation primitive
distinguishes those two passwords — its underlying bytes differ from the
base64-decoding of the `base64Encoded = true` hash. -/
theorem claimC10_flagged_hash (kdf : KdfFun) (p ivv : Bytes)
    (hlen : ∀ pw, (kdf pw (nodeB64Decode ivv) 100000 32).length = 32)
    (hbyte : ∀ x ∈ kdf (b64Encode (kdf p (nodeB64Decode ivv) 100000 32))
      (nodeB64Decode ivv) 100000 32, x < 256)
    (hdiff : kdf (kdf p (nodeB64Decode ivv) 100000 32) (nodeB64Decode ivv) 100000 32 ≠
      kdf (b64Encode (kdf p (nodeB64Decode ivv) 100000 32)) (nodeB64Decode ivv) 100000 32) :
    browserGenerateHashFlag kdf p ivv false =
      jsUint8ArrayToString
        (kdf (kdf p (nodeB64Decode ivv) 100000 32) (nodeB64Decode ivv) 100000 32) ∧
    (kdf (kdf p (nodeB64Decode ivv) 100000 32) (nodeB64Decode ivv) 100000 32).length = 32 ∧
    (b64Encode (kdf p (nodeB64Decode ivv) 100000 32)).length ≠
      (kdf p (nodeB64Decode ivv) 100000 32).length ∧
    nodeB64Decode (browserGenerateHashFlag kdf p ivv true) =
      kdf (b64Encode (kdf p (nodeB64Decode ivv) 100000 32)) (nodeB64Decode ivv) 100000 32 ∧
    kdf (kdf p (nodeB64Decode ivv) 100000 32) (nodeB64Decode ivv) 100000 32 ≠
      nodeB64Decode (browserGenerateHashFlag kdf p ivv true) := by
  have hdec : nodeB64Decode (browserGenerateHashFlag kdf p ivv true) =
      kdf (b64Encode (kdf p (nodeB64Decode ivv) 100000 32)) (nodeB64Decode ivv) 100000 32 := by
    show nodeB64Decode (b64Encode (kdf (b64Encode (kdf p (nodeB64Decode ivv) 100000 32))
      (nodeB64Decode ivv) 100000 32)) = _
    exact nodeB64Decode_b64Encode _ hbyte
  refine ⟨rfl, hlen _, ?_, hdec, ?_⟩
  · rw [b64Encode_length, hlen p]
    omega
  · rw [hdec]
    exact hdiff

/-- C10 witness: a concrete length-recording derivation stand-in
distinguishes the raw 32-byte password from its 44-character base64 text,
so the two hash variants genuinely disagree. -/
theorem claimC10_flagged_hash_w :
    kdfW (kdfW [112] (nodeB64Decode ivvA) 100000 32) (nodeB64Decode ivvA) 100000 32 ≠
      nodeB64Decode (browserGenerateHashFlag kdfW [112] ivvA true) :=
  (claimC10_flagged_hash kdfW [112] ivvA
    (fun pw => by simp [kdfW]) (by decide) (by decide)).2.2.2.2

/-! ## Sanity: the embedding round-trips where the code actually does -/

/-- The text path does round-trip when no `'='` lands between the update and
final base64 segments: the empty plaintext (update output empty). -/
theorem textRoundTrip_ok_on_empty :
    (nativeEncryptText idBlock keyA ivvA []).bind (nativeDecryptText idBlock keyA ivvA) =
      Except.ok [] := rfl

/-- The stream path does round-trip when every base64 boundary stays
quantum-aligned and padding-free: 36 raw bytes, encrypt buffer 48 (one
source chunk of 48 base64 characters, update output 48 bytes, no embedded
`'='`), decrypt buffer 64. -/
theorem streamRoundTrip_ok_when_aligned :
    b64SinkContents
      (runDecryptStream idBlock keyA ivvA (some 64) freshUtf8St
        (SourceOutcome.ends (chunkify 64 (utf8SinkContents
          (runEncryptStream idBlock keyA ivvA (some 48) freshUtf8St
            (SourceOutcome.ends (chunkify 48 (b64Encode (List.replicate 36 7))))))))) =
      List.replicate 36 7 := by decide

end DMSCrypto
